import Mathlib

/-!
Verification of the TDS20xx Tektronix oscilloscope driver (tekscope.py).

The Python source is shallowly embedded: floating-point arithmetic is
modelled by exact rational arithmetic over ℚ, Python dictionaries by
association lists, and Python exceptions (KeyError, ValueError, ...)
by Option/Except results.  Instrument I/O is modelled by response
oracles (functions from request strings to reply tokens) together with
explicit logs of the commands and queries emitted, so that frame and
ordering properties of the emitted traffic can be stated.
-/

namespace Tek

/-- Tektronix "not a number" sentinel: mNAN = 9.9e+37. -/
def mNAN : ℚ := 99 * 10 ^ 36

namespace Measurement

/-- Measurement.mtypeT: the twelve supported IMMed measurement type tags. -/
def mtypeT : List String :=
  ["FREQ", "MEAN", "PERI", "PHAS", "PK2P", "CRMS", "MINI", "MAXI", "RISE", "FALL", "PWID", "NWID"]

/-- Measurement.munitsT: the unit labels, positionally matching mtypeT. -/
def munitsT : List String :=
  ["Hz", "V ", "s ", "", "V ", "V ", "V ", "V ", "s ", "s ", "s ", "s "]

/-- Measurement.mtypeD = \x7bmeas: unit for meas, unit in zip(mtypeT, munitsT)\x7d;
the lookup returns none where Python raises KeyError. -/
def mtypeD (meas : String) : Option String :=
  (mtypeT.zip munitsT).lookup meas

/-- Measurement.sufD = \x7b0:' ', 3:'m', 6:'u', 9:'n', 12:'p', -3:'k', -6:'M'\x7d;
the lookup returns none where Python raises KeyError. -/
def sufD (m : ℤ) : Option String :=
  [((0 : ℤ), " "), (3, "m"), (6, "u"), (9, "n"), (12, "p"), (-3, "k"), (-6, "M")].lookup m

/-- Exact-arithmetic model of mulmod = 3 * ceil(log10(1.0/aval)/3) from
val_to_string.  For aval > 0 one has, over the reals,
ceil(-log10(aval)/3) = -floor(log10(aval)/3) = -floor(floor(log10 aval)/3),
and floor(log10 aval) is Int.log 10 aval, so the expression is computed
from the integer floor logarithm with a flooring integer division. -/
def mulmod (aval : ℚ) : ℤ := -3 * Int.fdiv (Int.log 10 aval) 3

/-- The structured content of the string built by Measurement.val_to_string:
the zero branch, the out-of-range "** ? **" branch, and the scaled branch
carrying the measurement tag, the scaled numeric value, the SI suffix
letter and the unit label, in the order they are concatenated. -/
inductive Rendered where
  | zero (meas : String) (unit : String)
  | unmeasurable (meas : String)
  | scaled (meas : String) (scaled : ℚ) (suf : String) (unit : String)
deriving DecidableEq

/-- Measurement.val_to_string(val, meas), with the template formatting
abstracted into the Rendered structure; none models a Python KeyError
escaping from the sufD / mtypeD dictionary lookups.  The local
aval = abs(val) of the source is inlined as the absolute value. -/
def val_to_string (val : ℚ) (meas : String) : Option Rendered :=
  if val = 0 then (mtypeD meas).map (fun u => Rendered.zero meas u)
  else if 10 * 10 ^ 9 < |val| then some (Rendered.unmeasurable meas)
  else if |val| < 1 ∨ 1000 ≤ |val| then
    match sufD (mulmod |val|), mtypeD meas with
    | some suf, some unit =>
        some (Rendered.scaled meas (val * (10 : ℚ) ^ mulmod |val|) suf unit)
    | _, _ => none
  else (mtypeD meas).map (fun u => Rendered.scaled meas val " " u)

/-- Bracketing characterization of Int.log 10 on positive rationals. -/
theorem intLog10_eq {a : ℚ} {x : ℤ} (ha : 0 < a)
    (h1 : (10 : ℚ) ^ x ≤ a) (h2 : a < (10 : ℚ) ^ (x + 1)) : Int.log 10 a = x := by
  have hb : (1 : ℕ) < 10 := by norm_num
  have hle : x ≤ Int.log 10 a := (Int.zpow_le_iff_le_log hb ha).1 (by exact_mod_cast h1)
  have hlt : Int.log 10 a < x + 1 := (Int.lt_zpow_iff_log_lt hb ha).1 (by exact_mod_cast h2)
  omega

/-- In the scaling branch of val_to_string, for magnitudes between 1e-12 and
1e9 the chosen multiplier is a key of sufD and brackets the scaled magnitude
into [1, 1000). -/
theorem mulmod_brackets {a : ℚ} (ha : 0 < a)
    (h12 : (10 : ℚ) ^ (-12 : ℤ) ≤ a) (h9 : a < (10 : ℚ) ^ (9 : ℤ))
    (hbr : a < 1 ∨ 1000 ≤ a) :
    (∃ suf, sufD (mulmod a) = some suf ∧ suf ∈ [" ", "m", "u", "n", "p", "k", "M"]) ∧
      1 ≤ a * (10 : ℚ) ^ mulmod a ∧ a * (10 : ℚ) ^ mulmod a < 1000 := by
  have hb : (1 : ℕ) < 10 := by norm_num
  set e : ℤ := Int.log 10 a with he
  have he1 : (10 : ℚ) ^ e ≤ a := by
    have := Int.zpow_log_le_self hb ha
    exact_mod_cast this
  have he2 : a < (10 : ℚ) ^ (e + 1) := by
    have := Int.lt_zpow_succ_log_self hb a
    exact_mod_cast this
  have hel : (-12 : ℤ) ≤ e := (Int.zpow_le_iff_le_log hb ha).1 (by exact_mod_cast h12)
  have heu : e < 9 := (Int.lt_zpow_iff_log_lt hb ha).1 (by exact_mod_cast h9)
  obtain ⟨q, hq⟩ : ∃ q, Int.fdiv e 3 = q := ⟨_, rfl⟩
  obtain ⟨r, hrd⟩ : ∃ r, Int.fmod e 3 = r := ⟨_, rfl⟩
  have hqr : r + 3 * q = e := by rw [← hq, ← hrd]; exact Int.fmod_add_fdiv e 3
  have hr0 : 0 ≤ r := by rw [← hrd]; exact Int.fmod_nonneg' e (by norm_num)
  have hr3 : r < 3 := by rw [← hrd]; exact Int.fmod_lt_of_pos e (by norm_num)
  have hqn : q ≠ 0 := by
    rcases hbr with hlt1 | hge
    · have h0 : a < (10 : ℚ) ^ (0 : ℤ) := by simpa using hlt1
      have : e < 0 := (Int.lt_zpow_iff_log_lt hb ha).1 (by exact_mod_cast h0)
      omega
    · have h3 : (10 : ℚ) ^ (3 : ℤ) ≤ a := by
        rw [show ((10 : ℚ)) ^ (3 : ℤ) = 1000 by norm_num]; exact hge
      have : (3 : ℤ) ≤ e := (Int.zpow_le_iff_le_log hb ha).1 (by exact_mod_cast h3)
      omega
  have hm : mulmod a = -3 * q := by rw [mulmod, ← he, hq]
  have hql : -4 ≤ q := by omega
  have hqu : q ≤ 2 := by omega
  have hpow : (0 : ℚ) < (10 : ℚ) ^ (-3 * q) := zpow_pos (by norm_num) _
  have hlow : (10 : ℚ) ^ r ≤ a * (10 : ℚ) ^ (-3 * q) := by
    have h := mul_le_mul_of_nonneg_right he1 (le_of_lt hpow)
    calc (10 : ℚ) ^ r = (10 : ℚ) ^ (e + -3 * q) := by rw [show e + -3 * q = r by omega]
    _ = (10 : ℚ) ^ e * (10 : ℚ) ^ (-3 * q) := zpow_add₀ (by norm_num) _ _
    _ ≤ a * (10 : ℚ) ^ (-3 * q) := h
  have hhigh : a * (10 : ℚ) ^ (-3 * q) < (10 : ℚ) ^ (r + 1) := by
    have h := mul_lt_mul_of_pos_right he2 hpow
    calc a * (10 : ℚ) ^ (-3 * q) < (10 : ℚ) ^ (e + 1) * (10 : ℚ) ^ (-3 * q) := h
    _ = (10 : ℚ) ^ (e + 1 + -3 * q) := (zpow_add₀ (by norm_num) _ _).symm
    _ = (10 : ℚ) ^ (r + 1) := by rw [show e + 1 + -3 * q = r + 1 by omega]
  have h1r : (1 : ℚ) ≤ (10 : ℚ) ^ r := by
    interval_cases r <;> norm_num
  have h1000 : (10 : ℚ) ^ (r + 1) ≤ 1000 := by
    interval_cases r <;> norm_num
  refine ⟨?_, ?_, ?_⟩
  · rw [hm]
    rcases (by omega : q = -4 ∨ q = -3 ∨ q = -2 ∨ q = -1 ∨ q = 1 ∨ q = 2) with
      rfl | rfl | rfl | rfl | rfl | rfl
    · exact ⟨"p", by decide, by decide⟩
    · exact ⟨"n", by decide, by decide⟩
    · exact ⟨"u", by decide, by decide⟩
    · exact ⟨"m", by decide, by decide⟩
    · exact ⟨"k", by decide, by decide⟩
    · exact ⟨"M", by decide, by decide⟩
  · rw [hm]; exact le_trans h1r hlow
  · rw [hm]; exact lt_of_lt_of_le hhigh h1000

/-- Evaluation rule for mulmod from a power-of-ten bracketing of the input. -/
theorem mulmod_eval {a : ℚ} {x m : ℤ} (ha : 0 < a)
    (h1 : (10 : ℚ) ^ x ≤ a) (h2 : a < (10 : ℚ) ^ (x + 1))
    (hm : -3 * Int.fdiv x 3 = m) : mulmod a = m := by
  rw [mulmod, intLog10_eq ha h1 h2, hm]

/-- Evaluation rule for the scaling branch of val_to_string at positive inputs. -/
theorem vts_scaled_eval {v s : ℚ} {m : ℤ} {meas unit suf : String}
    (hv : 0 < v) (hnr : ¬ (10 * 10 ^ 9 < v)) (hbr : v < 1 ∨ 1000 ≤ v)
    (hm : mulmod v = m) (hsuf : sufD m = some suf) (hu : mtypeD meas = some unit)
    (hs : v * (10 : ℚ) ^ m = s) :
    val_to_string v meas = some (Rendered.scaled meas s suf unit) := by
  have hv0 : v ≠ 0 := ne_of_gt hv
  have habs : |v| = v := abs_of_pos hv
  unfold val_to_string
  rw [if_neg hv0]
  rw [habs, if_neg hnr, if_pos hbr, hm, hsuf, hu, hs]

/-- Evaluation rule for the unscaled middle branch of val_to_string. -/
theorem vts_mid_eval {v : ℚ} {meas unit : String}
    (h1 : 1 ≤ v) (h2 : v < 1000) (hu : mtypeD meas = some unit) :
    val_to_string v meas = some (Rendered.scaled meas v " " unit) := by
  have hv0 : v ≠ 0 := by intro h; rw [h] at h1; norm_num at h1
  have habs : |v| = v := abs_of_pos (by linarith)
  unfold val_to_string
  rw [if_neg hv0]
  rw [habs, if_neg (by push_neg; linarith), if_neg (by push_neg; exact ⟨h1, h2⟩), hu]
  rfl

/-- Evaluation rule for val_to_string when the sufD lookup fails (KeyError). -/
theorem vts_keyerr_eval {v : ℚ} {meas : String}
    (hv : 0 < v) (hnr : ¬ (10 * 10 ^ 9 < v)) (hbr : v < 1 ∨ 1000 ≤ v)
    (hsuf : sufD (mulmod v) = none) : val_to_string v meas = none := by
  have hv0 : v ≠ 0 := ne_of_gt hv
  have habs : |v| = v := abs_of_pos hv
  unfold val_to_string
  rw [if_neg hv0]
  rw [habs, if_neg hnr, if_pos hbr, hsuf]

end Measurement

/-- Claim C1 counterexample: v = 2e9 is nonzero and is not caught by the
out-of-range test (aval > 10.0e9) of Measurement.val_to_string, yet the
renderer produces no scaled string at all: the chosen step
3 * ceil(log10(1/aval)/3) = -9 is not a key of sufD, so the Python code
raises KeyError instead of choosing one of the documented prefix steps.
The claim, which asserts every such value is rendered with a prefix and a
scaled magnitude in [1, 1000), is therefore false as stated. -/
theorem claim_C1_counterexample :
    (2 * 10 ^ 9 : ℚ) ≠ 0 ∧ ¬ (10 * 10 ^ 9 < |(2 * 10 ^ 9 : ℚ)|) ∧
      Measurement.val_to_string (2 * 10 ^ 9) "FREQ" = none := by
  have habs : |(2 * 10 ^ 9 : ℚ)| = 2 * 10 ^ 9 := abs_of_pos (by norm_num)
  refine ⟨by norm_num, by rw [habs]; norm_num, ?_⟩
  have hm : Measurement.mulmod (2 * 10 ^ 9) = -9 :=
    Measurement.mulmod_eval (x := 9) (by norm_num) (by norm_num) (by norm_num) (by decide)
  exact Measurement.vts_keyerr_eval (by norm_num) (by norm_num)
    (Or.inr (by norm_num)) (by rw [hm]; decide)

/-- Claim C1, amended: the SI-scaling guarantee holds on the sufD-covered
band of magnitudes.  For a supported measurement tag: value 0 renders
unscaled in the zero branch; a magnitude above the 10.0e9 cutoff renders the
fixed unmeasurable placeholder; and for every nonzero value whose magnitude
lies in [1e-12, 1e9) the renderer picks a thousands step whose scaled
magnitude lands in [1, 1000) with one of the prefix letters
none/m/u/n/p/k/M before the unit label (magnitudes outside that band but
below the cutoff instead die with a KeyError, per the counterexample).
In particular all four boundary values 0.0009999, 0.001, 999.9 and 1000.0
with a volts unit scale into [1, 1000) exactly as documented. -/
theorem claim_C1_scaling (v : ℚ) (meas unit : String)
    (hu : Measurement.mtypeD meas = some unit) :
    (v = 0 → Measurement.val_to_string v meas = some (Measurement.Rendered.zero meas unit)) ∧
    (10 * 10 ^ 9 < |v| →
      Measurement.val_to_string v meas = some (Measurement.Rendered.unmeasurable meas)) ∧
    (v ≠ 0 → ¬ (10 * 10 ^ 9 < |v|) →
      (10 : ℚ) ^ (-12 : ℤ) ≤ |v| → |v| < (10 : ℚ) ^ (9 : ℤ) →
      ∃ s suf, Measurement.val_to_string v meas = some (Measurement.Rendered.scaled meas s suf unit) ∧
        1 ≤ |s| ∧ |s| < 1000 ∧ suf ∈ [" ", "m", "u", "n", "p", "k", "M"]) ∧
    Measurement.val_to_string ((9999 : ℚ) / 10 ^ 7) "MEAN" =
      some (Measurement.Rendered.scaled "MEAN" ((9999 : ℚ) / 10) "u" "V ") ∧
    Measurement.val_to_string ((1 : ℚ) / 1000) "MEAN" =
      some (Measurement.Rendered.scaled "MEAN" 1 "m" "V ") ∧
    Measurement.val_to_string ((9999 : ℚ) / 10) "MEAN" =
      some (Measurement.Rendered.scaled "MEAN" ((9999 : ℚ) / 10) " " "V ") ∧
    Measurement.val_to_string (1000 : ℚ) "MEAN" =
      some (Measurement.Rendered.scaled "MEAN" 1 "k" "V ") := by
  refine ⟨?_, ?_, ?_, ?_, ?_, ?_, ?_⟩
  · intro h
    subst h
    unfold Measurement.val_to_string
    rw [if_pos rfl, hu]
    rfl
  · intro h
    have hv0 : v ≠ 0 := by
      intro h0
      rw [h0] at h
      norm_num at h
    unfold Measurement.val_to_string
    rw [if_neg hv0, if_pos h]
  · intro hv0 hnr hlo hhi
    by_cases hbr : |v| < 1 ∨ 1000 ≤ |v|
    · obtain ⟨⟨suf, hsuf, hmem⟩, hs1, hs2⟩ :=
        Measurement.mulmod_brackets (abs_pos.2 hv0) hlo hhi hbr
      refine ⟨v * (10 : ℚ) ^ Measurement.mulmod |v|, suf, ?_, ?_, ?_, hmem⟩
      · unfold Measurement.val_to_string
        rw [if_neg hv0, if_neg hnr, if_pos hbr, hsuf, hu]
      · rw [abs_mul, abs_of_pos (zpow_pos (show (0 : ℚ) < 10 by norm_num) _)]
        exact hs1
      · rw [abs_mul, abs_of_pos (zpow_pos (show (0 : ℚ) < 10 by norm_num) _)]
        exact hs2
    · push_neg at hbr
      refine ⟨v, " ", ?_, hbr.1, hbr.2, by decide⟩
      unfold Measurement.val_to_string
      rw [if_neg hv0, if_neg hnr, if_neg (by push_neg; exact hbr), hu]
      rfl
  · have hm : Measurement.mulmod ((9999 : ℚ) / 10 ^ 7) = 6 :=
      Measurement.mulmod_eval (x := -4) (by norm_num) (by norm_num) (by norm_num) (by decide)
    exact Measurement.vts_scaled_eval (by norm_num) (by norm_num)
      (Or.inl (by norm_num)) hm (by decide) (by decide) (by norm_num)
  · have hm : Measurement.mulmod ((1 : ℚ) / 1000) = 3 :=
      Measurement.mulmod_eval (x := -3) (by norm_num) (by norm_num) (by norm_num) (by decide)
    exact Measurement.vts_scaled_eval (by norm_num) (by norm_num)
      (Or.inl (by norm_num)) hm (by decide) (by decide) (by norm_num)
  · exact Measurement.vts_mid_eval (by norm_num) (by norm_num) (by decide)
  · have hm : Measurement.mulmod (1000 : ℚ) = -3 :=
      Measurement.mulmod_eval (x := 3) (by norm_num) (by norm_num) (by norm_num) (by decide)
    exact Measurement.vts_scaled_eval (by norm_num) (by norm_num)
      (Or.inr (by norm_num)) hm (by decide) (by decide) (by norm_num)

/-- Witness for claim C1: the amended theorem applied at v = 1/1000 with the
MEAN tag; the scaling conjunct produces a scaled magnitude in [1, 1000)
with a documented prefix letter. -/
theorem claim_C1_witness :
    ∃ s suf,
      Measurement.val_to_string ((1 : ℚ) / 1000) "MEAN" =
        some (Measurement.Rendered.scaled "MEAN" s suf "V ") ∧
      1 ≤ |s| ∧ |s| < 1000 ∧ suf ∈ [" ", "m", "u", "n", "p", "k", "M"] :=
  (claim_C1_scaling ((1 : ℚ) / 1000) "MEAN" "V " (by decide)).2.2.1
    (by norm_num)
    (by rw [show |(1 / 1000 : ℚ)| = 1 / 1000 from abs_of_pos (by norm_num)]; norm_num)
    (by rw [show |(1 / 1000 : ℚ)| = 1 / 1000 from abs_of_pos (by norm_num)]; norm_num)
    (by rw [show |(1 / 1000 : ℚ)| = 1 / 1000 from abs_of_pos (by norm_num)]; norm_num)

/-- Model of the Python upper() on one character: ASCII lower-case letters
are shifted to upper case, all other characters are unchanged. -/
def upperChar (c : Char) : Char := if c.isLower then Char.ofNat (c.toNat - 32) else c

/-- Model of string.upper from the Python standard library (ASCII). -/
def upper (s : String) : String := String.mk (s.data.map upperChar)

namespace Measurement

/-- The per-key loop body of Measurement.__call__ on the (already
upper-cased) requested tags: each key is checked against mtypeT and, when
valid, immediately read through the _immed reader (one instrument round
trip of two transport writes) and stored; an invalid key raises ValueError
on the spot, before its own read but after all earlier reads.  The result
pairs the list of (key, value) _immed reads actually performed, in order,
with the offending key of the ValueError, if one was raised. -/
def callGo (immed : String → ℚ) : List String → List (String × ℚ) × Option String
  | [] => ([], none)
  | k :: ks =>
    if k ∈ mtypeT then
      ((k, immed k) :: (callGo immed ks).1, (callGo immed ks).2)
    else ([], some k)

/-- Measurement.__call__(keyL): reset, upper-case the requested tags
(measL = tuple(map(upper, keyL))), then run the acquisition loop.  The
first component records the device I/O performed. -/
def call (immed : String → ℚ) (keyL : List String) :
    List (String × ℚ) × Option String :=
  callGo immed (keyL.map upper)

end Measurement

/-- Claim C3 counterexample: requesting ["FREQ", "BOGU"] raises the
unsupported-measurement ValueError at the second tag, but only after the
FREQ measurement has already been acquired through the _immed reader, so a
transport spy records device I/O (writes) before the error: the claim that
the error precedes any device I/O regardless of the invalid tag's position
is false. -/
theorem claim_C3_counterexample :
    (Measurement.call (fun _ => (42 : ℚ)) ["FREQ", "BOGU"]).2 = some "BOGU" ∧
      (Measurement.call (fun _ => (42 : ℚ)) ["FREQ", "BOGU"]).1 = [("FREQ", 42)] ∧
      (Measurement.call (fun _ => (42 : ℚ)) ["FREQ", "BOGU"]).1 ≠ [] := by
  exact ⟨by decide, by decide, by decide⟩

/-- Claim C3, amended: Measurement.__call__ validates each tag only when
the loop reaches it, so the ValueError is raised at the first invalid tag
(after upper-casing) and the _immed device reads are performed exactly for
the valid tags preceding it; zero reads occur exactly when the invalid tag
comes first. -/
theorem claim_C3_lazy_validation (immed : String → ℚ) (keyL : List String) :
    Measurement.call immed keyL =
      (((keyL.map upper).takeWhile
            (fun k => decide (k ∈ Measurement.mtypeT))).map (fun k => (k, immed k)),
        ((keyL.map upper).dropWhile
            (fun k => decide (k ∈ Measurement.mtypeT))).head?) := by
  rw [Measurement.call]
  induction keyL.map upper with
  | nil => rfl
  | cons k ks ih =>
    by_cases hk : k ∈ Measurement.mtypeT
    · simp [Measurement.callGo, hk, List.takeWhile_cons, List.dropWhile_cons, ih]
    · simp [Measurement.callGo, hk, List.takeWhile_cons, List.dropWhile_cons]

namespace Channel

/-- The curve-decoding tail of Channel.acquire: the payload bytes (signed
8-bit samples as unpacked by struct.unpack, with the trailing newline byte
dropped by the [:-1] slice) are turned into the two derived traces
trace = (sample - YOFF) * YMULT + YZERO and
trace_undisplaced = sample * YMULT / voltsdiv, the numpy elementwise
arithmetic being modelled by List.map. -/
def decodeTraces (payload : List ℤ) (yoff ymult yzero voltsdiv : ℚ) :
    List ℚ × List ℚ :=
  (payload.dropLast.map (fun (s : ℤ) => ((s : ℚ) - yoff) * ymult + yzero),
   payload.dropLast.map (fun (s : ℤ) => (s : ℚ) * ymult / voltsdiv))

end Channel

/-- Claim C2: Channel.acquire derives both traces from the same raw sample
block, elementwise as (s - yOff)*yMult + yZero and s*yMult/voltsPerDivision,
and decoding a synthetic payload with known constants reproduces the input
samples (exactly, in the rational model) from either trace: inverting the
affine map on the physical trace, or multiplying the display-relative trace
by voltsPerDivision/yMult, recovers every raw sample. -/
theorem claim_C2_traces (payload : List ℤ) (yoff ymult yzero voltsdiv : ℚ)
    (hm : ymult ≠ 0) (hv : voltsdiv ≠ 0) :
    ((Channel.decodeTraces payload yoff ymult yzero voltsdiv).1.map
        (fun x => (x - yzero) / ymult + yoff) =
      payload.dropLast.map (fun (s : ℤ) => (s : ℚ))) ∧
    ((Channel.decodeTraces payload yoff ymult yzero voltsdiv).2.map
        (fun x => x * voltsdiv / ymult) =
      payload.dropLast.map (fun (s : ℤ) => (s : ℚ))) ∧
    (Channel.decodeTraces payload yoff ymult yzero voltsdiv).1.length =
      payload.dropLast.length ∧
    (Channel.decodeTraces payload yoff ymult yzero voltsdiv).2.length =
      payload.dropLast.length := by
  refine ⟨?_, ?_, by simp [Channel.decodeTraces], by simp [Channel.decodeTraces]⟩
  · simp only [Channel.decodeTraces, List.map_map]
    refine List.map_congr_left fun s _ => ?_
    field_simp
    ring
  · simp only [Channel.decodeTraces, List.map_map]
    refine List.map_congr_left fun s _ => ?_
    field_simp

/-- Witness for claim C2 at a concrete synthetic payload: samples 5 and -7
followed by the trailing newline byte 10, with yOff = -45, yMult = 1/25,
yZero = 0 and 1 volt per division. -/
theorem claim_C2_witness :
    ((Channel.decodeTraces [5, -7, 10] (-45) (1 / 25) 0 1).1.map
        (fun x => (x - 0) / (1 / 25) + (-45)) =
      ([5, -7, 10] : List ℤ).dropLast.map (fun (s : ℤ) => (s : ℚ))) ∧
    ((Channel.decodeTraces [5, -7, 10] (-45) (1 / 25) 0 1).2.map
        (fun x => x * 1 / (1 / 25)) =
      ([5, -7, 10] : List ℤ).dropLast.map (fun (s : ℤ) => (s : ℚ))) ∧
    (Channel.decodeTraces [5, -7, 10] (-45) (1 / 25) 0 1).1.length =
      ([5, -7, 10] : List ℤ).dropLast.length ∧
    (Channel.decodeTraces [5, -7, 10] (-45) (1 / 25) 0 1).2.length =
      ([5, -7, 10] : List ℤ).dropLast.length :=
  claim_C2_traces [5, -7, 10] (-45) (1 / 25) 0 1 (by norm_num) (by norm_num)

/-- A Python value as it appears in the trigger/horizontal caches and in
command arguments: None, a string, or a number (Python int and float are
modelled together as ℚ). -/
inductive PyVal where
  | none
  | str (s : String)
  | num (q : ℚ)
deriving DecidableEq

/-- Python truthiness, as tested by the guards of the form if not val:
None, the empty string and the number zero are falsy. -/
def PyVal.truthy : PyVal → Bool
  | .none => false
  | .str s => s ≠ ""
  | .num q => q ≠ 0

/-- Consume leading ASCII digits: accumulated value, digit count, rest. -/
def takeDigits : ℕ → ℕ → List Char → ℕ × ℕ × List Char
  | acc, n, [] => (acc, n, [])
  | acc, n, c :: cs =>
    if c.isDigit then takeDigits (10 * acc + (c.toNat - 48)) (n + 1) cs
    else (acc, n, c :: cs)

/-- Model of the Python float() constructor on the token grammar the
instrument uses: optional sign, integer digits, optional fractional part,
optional e/E exponent with optional sign; none models ValueError. -/
def pyFloat (s : String) : Option ℚ :=
  let p1 : ℚ × List Char :=
    match s.data with
    | '+' :: t => (1, t)
    | '-' :: t => (-1, t)
    | t => (1, t)
  let (ip, nI, cs2) := takeDigits 0 0 p1.2
  let p3 : ℕ × ℕ × List Char :=
    match cs2 with
    | '.' :: t => takeDigits 0 0 t
    | _ => (0, 0, cs2)
  let (fp, nF, cs3) := p3
  if nI + nF = 0 then none
  else
    let mant : ℚ := p1.1 * ((ip : ℚ) + (fp : ℚ) / ((10 ^ nF : ℕ) : ℚ))
    match cs3 with
    | [] => some mant
    | 'e' :: t | 'E' :: t =>
      let p4 : Bool × List Char :=
        match t with
        | '+' :: t2 => (true, t2)
        | '-' :: t2 => (false, t2)
        | t2 => (true, t2)
      let (ev, nE, t3) := takeDigits 0 0 p4.2
      if nE = 0 then none
      else
        match t3 with
        | [] =>
          let p : ℚ := ((10 ^ ev : ℕ) : ℚ)
          some (if p4.1 then mant * p else mant / p)
        | _ => none
    | _ => none

/-- Model of the Python int() constructor: optional sign and digits only. -/
def pyInt (s : String) : Option ℚ :=
  let p1 : ℚ × List Char :=
    match s.data with
    | '+' :: t => (1, t)
    | '-' :: t => (-1, t)
    | t => (1, t)
  let (v, n, cs2) := takeDigits 0 0 p1.2
  if n = 0 then none
  else match cs2 with
  | [] => some (p1.1 * (v : ℚ))
  | _ => none

/-- A conversion-function entry from the trigFuncD / horFuncD dictionaries:
None in the source (keep the token as a string), float, or int. -/
inductive Conv where
  | keep
  | toFloat
  | toInt
deriving DecidableEq

/-- Apply a conversion function to a query_val token, as done in _acqD and
in HorizontalControl.__getitem__ (if func: val = func(val)); none models
the ValueError raised by Python float()/int() on an unparsable token. -/
def Conv.app : Conv → String → Option PyVal
  | .keep, s => some (.str s)
  | .toFloat, s => (pyFloat s).map fun q => PyVal.num q
  | .toInt, s => (pyInt s).map fun q => PyVal.num q

/-- Python dictionary assignment d[k] = v, modelled as an association
list with shadowing: the new binding is consed in front, so every lookup
sees the latest value.  (Python 2.7 dictionaries are unordered and the
source only ever reads _trigD through key lookups, so any
lookup-equivalent representation is faithful.) -/
def updateD (d : List (String × PyVal)) (k : String) (v : PyVal) :
    List (String × PyVal) :=
  (k, v) :: d

/-- Result of a write-path operation: the updated _trigD cache, the
commands emitted to the transport (the key path and value of each
TRIGGER:MAIN:<key> <val> command, in order), and the raised error if any. -/
structure WriteRes where
  cache : List (String × PyVal)
  log : List (String × PyVal)
  err : Option String
deriving DecidableEq

namespace TriggerControl

/-- TriggerControl.trigFuncD: every trigger field path with its conversion
function (None / float / int as in the source dictionary). -/
def trigFuncD : List (String × Conv) :=
  [("STATE", .keep), ("MODE", .keep), ("TYPE", .keep), ("LEVEL", .toFloat),
   ("HOLDO", .toFloat), ("EDGE:SOU", .keep), ("EDGE:COUP", .keep),
   ("EDGE:SLO", .keep), ("PULS:SOU", .keep), ("PULS:WIDTH:POL", .keep),
   ("PULS:WIDTH:WHEN", .keep), ("PULS:WIDTH:WIDTH", .toFloat),
   ("VID:SOU", .keep), ("VID:LINE", .toInt), ("VID:POL", .keep),
   ("VID:STAND", .keep), ("VID:SYNC", .keep)]

/-- trigT = trigFuncD.keys(). -/
def trigT : List String := trigFuncD.map Prod.fst

/-- mainD, as built by the class-body loop over (MODE, TYPE, LEVEL, HOLDO)
pulling each conversion from trigFuncD. -/
def mainD : List (String × Conv) :=
  [("MODE", .keep), ("TYPE", .keep), ("LEVEL", .toFloat), ("HOLDO", .toFloat)]

/-- edgeD, from the loop over (SOU, COUP, SLO) with the EDGE: conversions. -/
def edgeD : List (String × Conv) :=
  [("SOU", .keep), ("COUP", .keep), ("SLO", .keep)]

/-- pulsD, from the loop over (WIDTH:POL, WIDTH:WHEN, WIDTH:WIDTH, SOU). -/
def pulsD : List (String × Conv) :=
  [("WIDTH:POL", .keep), ("WIDTH:WHEN", .keep), ("WIDTH:WIDTH", .toFloat), ("SOU", .keep)]

/-- vidD, from the loop over (SOU, LINE, POL, STAND, SYNC). -/
def vidD : List (String × Conv) :=
  [("SOU", .keep), ("LINE", .toInt), ("POL", .keep), ("STAND", .keep), ("SYNC", .keep)]

/-- trigTypesD: the four trigger-type variants and their sub-dictionaries;
none models the KeyError on an unknown type. -/
def trigTypesD (typ : String) : Option (List (String × Conv)) :=
  if typ = "MAIN" then some mainD
  else if typ = "EDGE" then some edgeD
  else if typ = "PULS" then some pulsD
  else if typ = "VID" then some vidD
  else none

/-- TriggerControl.__setitem__(key, val): a falsy value returns immediately
(no command, no cache change); an unknown key raises ValueError before any
command; otherwise the TRIGGER:MAIN:<key> <val> command is emitted and the
local cache updated. -/
def setItem (d : List (String × PyVal)) (key : String) (val : PyVal) : WriteRes :=
  if val.truthy = false then ⟨d, [], none⟩
  else if key ∈ trigT then ⟨updateD d key val, [(key, val)], none⟩
  else ⟨d, [], some (key ++ " not in trigger dictionary")⟩

/-- TriggerControl.__getitem__(key): a pure read of the _trigD cache that
emits no instrument traffic; the error models the KeyError of a missing
field.  The (always empty) second component is the query log, kept for
uniformity with the other operations. -/
def getItem (d : List (String × PyVal)) (key : String) :
    Except String PyVal × List String :=
  match d.lookup key with
  | some v => (Except.ok v, [])
  | Option.none => (Except.error (key ++ " KeyError"), [])

/-- The loop of TriggerControl._setD over the kwD items: each key is
validated against the keys of the variant sub-dictionary (IndexError on
the first mismatch, aborting the remaining writes) and then written
through __setitem__ under the name typ ++ ":" ++ key. -/
def setDGo (d : List (String × PyVal)) (name : String) (setT : List String) :
    List (String × PyVal) → WriteRes
  | [] => ⟨d, [], none⟩
  | (key, val) :: rest =>
    if key ∈ setT then
      match setItem d (name ++ key) val with
      | ⟨d2, lg, Option.none⟩ =>
        let r := setDGo d2 name setT rest
        ⟨r.cache, lg ++ r.log, r.err⟩
      | ⟨d2, lg, some e⟩ => ⟨d2, lg, some e⟩
    else ⟨d, [], some (key ++ " not in setT")⟩

/-- TriggerControl._setD(typ, kwD): look up the variant sub-dictionary
(KeyError if absent) and run the write loop with name = typ ++ ":". -/
def setD (d : List (String × PyVal)) (typ : String)
    (kwD : List (String × PyVal)) : WriteRes :=
  match trigTypesD typ with
  | some theD => setDGo d (typ ++ ":") (theD.map Prod.fst) kwD
  | Option.none => ⟨d, [], some (typ ++ " KeyError")⟩

/-- The first three writes of setTrigger: LEVEL, MODE and HOLDO go through
__setitem__ in that order (falsy values skipped); these keys are always in
trigT, so no error can arise here. -/
def setMain (d : List (String × PyVal)) (level mode holdo : PyVal) : WriteRes :=
  let w1 := setItem d "LEVEL" level
  let w2 := setItem w1.cache "MODE" mode
  let w3 := setItem w2.cache "HOLDO" holdo
  ⟨w3.cache, w1.log ++ w2.log ++ w3.log, none⟩

/-- TriggerControl.setTrigger(level, mode, holdo, typ, trigD): write LEVEL,
MODE and HOLDO through __setitem__ (falsy values skipped), then, when typ
is truthy, validate it against trigTypesD (TypeError), write the
type-specific fields via _setD and finally write TYPE.  An error aborts
the remaining writes, as a Python exception would, keeping the commands
already emitted in the log. -/
def setTrigger (d : List (String × PyVal)) (level mode holdo : PyVal)
    (typ : PyVal) (trigD : List (String × PyVal)) : WriteRes :=
  let wm := setMain d level mode holdo
  if typ.truthy = false then ⟨wm.cache, wm.log, none⟩
  else
    match typ with
    | .str s =>
      match trigTypesD s with
      | some _ =>
        let wd := setD wm.cache s trigD
        match wd.err with
        | some e => ⟨wd.cache, wm.log ++ wd.log, some e⟩
        | Option.none =>
          let wt := setItem wd.cache "TYPE" (.str s)
          ⟨wt.cache, wm.log ++ wd.log ++ wt.log, wt.err⟩
      | Option.none => ⟨wm.cache, wm.log, some (s ++ " is not a trigger type")⟩
    | _ => ⟨wm.cache, wm.log, some "given type is not a trigger type"⟩

/-- Result of a read-refresh operation: the updated cache, the queries
emitted to the transport, in order, and the raised error if any. -/
structure AcqRes where
  cache : List (String × PyVal)
  log : List String
  err : Option String
deriving DecidableEq

/-- TriggerControl.acqState: query TRIG:STATE? through query_val and store
the reply token in the cache under STATE. -/
def acqState (instr : String → String) (d : List (String × PyVal)) : AcqRes :=
  ⟨updateD d "STATE" (.str (instr "TRIG:STATE?")), ["TRIG:STATE?"], none⟩

/-- The loop of TriggerControl._acqD over the items of the variant
sub-dictionary: query name ++ s ++ "?", apply the conversion function when
present (a parse failure raises ValueError, aborting the remaining
queries), and store the result under keyPrefix ++ s.  Python 2.7 dict
iteration order is implementation-defined (hash order); the model fixes
the source listing order of each sub-dictionary, so statements about the
emitted query list are exact up to that per-block permutation, and the
set of fields queried is order-independent. -/
def acqDGo (instr : String → String) (name keyPrefix : String)
    (d : List (String × PyVal)) : List (String × Conv) → AcqRes
  | [] => ⟨d, [], none⟩
  | (s, func) :: rest =>
    let q := name ++ s ++ "?"
    match func.app (instr q) with
    | some v =>
      let r := acqDGo instr name keyPrefix (updateD d (keyPrefix ++ s) v) rest
      ⟨r.cache, q :: r.log, r.err⟩
    | Option.none => ⟨d, [q], some (instr q ++ " ValueError")⟩

/-- TriggerControl._acqD(typ): name = TRIGGER:MAIN: with the variant name
and colon appended for the non-MAIN variants, which also prefix their
cache keys with typ ++ ":". -/
def acqD (instr : String → String) (d : List (String × PyVal))
    (typ : String) : AcqRes :=
  match trigTypesD typ with
  | some theD =>
    if typ = "MAIN" then acqDGo instr "TRIGGER:MAIN:" "" d theD
    else acqDGo instr ("TRIGGER:MAIN:" ++ typ ++ ":") (typ ++ ":") d theD
  | Option.none => ⟨d, [], some (typ ++ " KeyError")⟩

/-- TriggerControl.acqSettings: acqState, refresh the MAIN block, then
refresh the variant named by the freshly stored TYPE field. -/
def acqSettings (instr : String → String) (d : List (String × PyVal)) : AcqRes :=
  let a1 := acqState instr d
  let a2 := acqD instr a1.cache "MAIN"
  match a2.err with
  | some e => ⟨a2.cache, a1.log ++ a2.log, some e⟩
  | Option.none =>
    match a2.cache.lookup "TYPE" with
    | some (.str t) =>
      let a3 := acqD instr a2.cache t
      ⟨a3.cache, a1.log ++ a2.log ++ a3.log, a3.err⟩
    | some _ => ⟨a2.cache, a1.log ++ a2.log, some "TYPE is not a string"⟩
    | Option.none => ⟨a2.cache, a1.log ++ a2.log, some "TYPE KeyError"⟩

/-- Build the comprehension \x7bkey: self[key] for key in keys\x7d from the
cache; none models the KeyError of a missing field. -/
def collectKeys (d : List (String × PyVal)) :
    List String → Option (List (String × PyVal))
  | [] => some []
  | k :: ks =>
    match d.lookup k with
    | some v => (collectKeys d ks).map (fun r => (k, v) :: r)
    | Option.none => Option.none

/-- Build trigD[key] = self[typ ++ ":" ++ key] for the variant keys. -/
def collectTypeKeys (d : List (String × PyVal)) (typ : String) :
    List String → Option (List (String × PyVal))
  | [] => some []
  | k :: ks =>
    match d.lookup (typ ++ ":" ++ k) with
    | some v => (collectTypeKeys d typ ks).map (fun r => (k, v) :: r)
    | Option.none => Option.none

/-- Result of getTrigger: the assembled dictionary (or the raised error),
the queries emitted, and the cache as left behind. -/
structure GetRes where
  result : Except String (List (String × PyVal))
  log : List String
  cache : List (String × PyVal)

/-- The dictionary-assembly step of getTrigger, reading the cache alone:
the five common fields LEVEL, HOLDO, MODE, TYPE, STATE, then the fields
of the variant named by the cached TYPE, read as typ ++ ":" ++ key. -/
def assemble (d : List (String × PyVal)) :
    Except String (List (String × PyVal)) :=
  match collectKeys d ["LEVEL", "HOLDO", "MODE", "TYPE", "STATE"] with
  | some base =>
    match d.lookup "TYPE" with
    | some (.str t) =>
      match trigTypesD t with
      | some theD =>
        match collectTypeKeys d t (theD.map Prod.fst) with
        | some ext => Except.ok (base ++ ext)
        | Option.none => Except.error "variant KeyError"
      | Option.none => Except.error (t ++ " KeyError")
    | _ => Except.error "TYPE KeyError"
  | Option.none => Except.error "common KeyError"

/-- TriggerControl.getTrigger(forceAcq): optionally run acqSettings, then
assemble the result dictionary from the cache without further traffic. -/
def getTrigger (instr : String → String) (d : List (String × PyVal))
    (forceAcq : Bool) : GetRes :=
  let pre : AcqRes := if forceAcq then acqSettings instr d else ⟨d, [], none⟩
  match pre.err with
  | some e => ⟨Except.error e, pre.log, pre.cache⟩
  | Option.none => ⟨assemble pre.cache, pre.log, pre.cache⟩

end TriggerControl

namespace HorizontalControl

/-- HorizontalControl.horFuncD. -/
def horFuncD : List (String × Conv) :=
  [("HOR:VIEW", .keep), ("HOR:MAIN:POS", .toFloat), ("HOR:MAIN:SCA", .toFloat)]

/-- horT = horFuncD.keys(). -/
def horT : List String := horFuncD.map Prod.fst

/-- HorizontalControl.__setitem__(key, val): falsy value is a no-op,
unknown key raises ValueError, otherwise the <key> <val> command is
emitted.  The source performs no cache update on this path (the _horD
dictionary is never written), which the unchanged cache reflects. -/
def setItem (d : List (String × PyVal)) (key : String) (val : PyVal) : WriteRes :=
  if val.truthy = false then ⟨d, [], none⟩
  else if key ∈ horT then ⟨d, [(key, val)], none⟩
  else ⟨d, [], some (key ++ " not in trigger dictionary")⟩

/-- HorizontalControl.__getitem__(key): queries the instrument with the key
on every read (val = query_val(key)) and never consults the _horD cache;
it then looks up a conversion function in horFuncD indexed by the returned
token (sic: the source indexes horFuncD[val], not horFuncD[key]) and
applies it when present.  The second component is the emitted query log. -/
def getItem (instr : String → String) (key : String) :
    Except String PyVal × List String :=
  let val := instr key
  match horFuncD.lookup val with
  | some func =>
    match func.app val with
    | some v => (Except.ok v, [key])
    | Option.none => (Except.error (val ++ " ValueError"), [key])
  | Option.none => (Except.error (val ++ " KeyError"), [key])

end HorizontalControl

/-- A concrete instrument-response oracle used by the C4 theorems: the
trigger type reads back EDGE, the level and holdoff read back parsable
floats, and every other query returns a fixed token. -/
def instr0 : String → String := fun q =>
  if q = "TRIGGER:MAIN:TYPE?" then "EDGE"
  else if q = "TRIGGER:MAIN:LEVEL?" then "4.56E0"
  else if q = "TRIGGER:MAIN:HOLDO?" then "5.0E-7"
  else "X"

/-- The query log of one HorizontalControl.__getitem__ read is always the
single key queried, whatever the outcome. -/
theorem HorizontalControl.getItem_log (instr : String → String) (key : String) :
    (HorizontalControl.getItem instr key).2 = [key] := by
  unfold HorizontalControl.getItem
  rcases h : List.lookup (instr key) HorizontalControl.horFuncD with _ | f
  · simp [h]
  · rcases h2 : f.app (instr key) with _ | v <;> simp [h, h2]

/-- Under an oracle whose TYPE response is EDGE and whose LEVEL and HOLDO
responses parse as floats, acqSettings emits exactly the state query, the
four MAIN-block queries and the three EDGE-variant queries, raising
nothing. -/
theorem TriggerControl.acqSettings_edge (instr : String → String)
    (d : List (String × PyVal)) (lvl hld : ℚ)
    (hT : instr "TRIGGER:MAIN:TYPE?" = "EDGE")
    (hL : pyFloat (instr "TRIGGER:MAIN:LEVEL?") = some lvl)
    (hH : pyFloat (instr "TRIGGER:MAIN:HOLDO?") = some hld) :
    (TriggerControl.acqSettings instr d).log =
      ["TRIG:STATE?", "TRIGGER:MAIN:MODE?", "TRIGGER:MAIN:TYPE?",
       "TRIGGER:MAIN:LEVEL?", "TRIGGER:MAIN:HOLDO?", "TRIGGER:MAIN:EDGE:SOU?",
       "TRIGGER:MAIN:EDGE:COUP?", "TRIGGER:MAIN:EDGE:SLO?"] ∧
    (TriggerControl.acqSettings instr d).err = none := by
  constructor <;>
    simp [TriggerControl.acqSettings, TriggerControl.acqState,
      TriggerControl.acqD, TriggerControl.acqDGo, TriggerControl.mainD,
      TriggerControl.edgeD, TriggerControl.trigTypesD, updateD, Conv.app,
      hT, hL, hH, List.lookup]

/-- getTrigger always emits exactly the queries of its refresh phase. -/
theorem TriggerControl.getTrigger_log (instr : String → String)
    (d : List (String × PyVal)) :
    (TriggerControl.getTrigger instr d true).log =
      (TriggerControl.acqSettings instr d).log := by
  unfold TriggerControl.getTrigger
  rcases h : (TriggerControl.acqSettings instr d).err with _ | e <;> simp [h]

/-- Claim C4 counterexample: HorizontalControl.__getitem__ does not return
a cached value: it queries the instrument on every read, so reading the
main position field emits one query (a transport spy would record I/O),
contradicting the claim that reads without an explicit force-refresh
perform no device I/O. -/
theorem claim_C4_counterexample :
    (HorizontalControl.getItem instr0 "HOR:MAIN:POS").2 = ["HOR:MAIN:POS"] ∧
      (HorizontalControl.getItem instr0 "HOR:MAIN:POS").2 ≠ [] := by
  exact ⟨by decide, by decide⟩

/-- Claim C4, amended: TriggerControl.__getitem__ is a pure cache read
that performs no device I/O, and getTrigger without forceAcq emits no
queries and leaves the cache alone; HorizontalControl.__getitem__ however
always queries the device (one query per read, never consulting its
cache).  A forced refresh getTrigger(forceAcq=True) re-queries, in order,
the trigger state, every field of the common MAIN block, and every field
of the trigger-type variant the instrument reports, the variant being
taken from the response to the TYPE query.  (The query order within the
MAIN and variant blocks is the model's listing order; Python 2.7 iterates
these dicts in hash order, so only the block structure and the set of
queried fields are dictated by the source.) -/
theorem claim_C4_cached_reads (instr : String → String)
    (d : List (String × PyVal)) (key : String) (lvl hld : ℚ)
    (hT : instr "TRIGGER:MAIN:TYPE?" = "EDGE")
    (hL : pyFloat (instr "TRIGGER:MAIN:LEVEL?") = some lvl)
    (hH : pyFloat (instr "TRIGGER:MAIN:HOLDO?") = some hld) :
    (TriggerControl.getItem d key).2 = [] ∧
    (∀ v, d.lookup key = some v → (TriggerControl.getItem d key).1 = Except.ok v) ∧
    (TriggerControl.getTrigger instr d false).log = [] ∧
    (TriggerControl.getTrigger instr d false).cache = d ∧
    (HorizontalControl.getItem instr key).2 = [key] ∧
    (TriggerControl.getTrigger instr d true).log =
      ["TRIG:STATE?", "TRIGGER:MAIN:MODE?", "TRIGGER:MAIN:TYPE?",
       "TRIGGER:MAIN:LEVEL?", "TRIGGER:MAIN:HOLDO?", "TRIGGER:MAIN:EDGE:SOU?",
       "TRIGGER:MAIN:EDGE:COUP?", "TRIGGER:MAIN:EDGE:SLO?"] := by
  refine ⟨?_, ?_, ?_, ?_, HorizontalControl.getItem_log instr key, ?_⟩
  · unfold TriggerControl.getItem
    rcases d.lookup key with _ | v <;> rfl
  · intro v h
    unfold TriggerControl.getItem
    rw [h]
  · unfold TriggerControl.getTrigger
    rfl
  · unfold TriggerControl.getTrigger
    rfl
  · rw [TriggerControl.getTrigger_log]
    exact (TriggerControl.acqSettings_edge instr d lvl hld hT hL hH).1

/-- Witness for claim C4: the forced refresh against the concrete oracle
emits exactly the state query, the four MAIN-block queries and the three
EDGE-variant queries, in order. -/
theorem claim_C4_witness :
    (TriggerControl.getTrigger instr0 [] true).log =
      ["TRIG:STATE?", "TRIGGER:MAIN:MODE?", "TRIGGER:MAIN:TYPE?",
       "TRIGGER:MAIN:LEVEL?", "TRIGGER:MAIN:HOLDO?", "TRIGGER:MAIN:EDGE:SOU?",
       "TRIGGER:MAIN:EDGE:COUP?", "TRIGGER:MAIN:EDGE:SLO?"] :=
  (claim_C4_cached_reads instr0 [] "HOR:MAIN:POS" (114 / 25) (1 / 2000000)
    (by decide)
    (by
      have h : instr0 "TRIGGER:MAIN:LEVEL?" = "4.56E0" := by decide
      rw [h]
      simp +decide [pyFloat, takeDigits]; norm_num)
    (by
      have h : instr0 "TRIGGER:MAIN:HOLDO?" = "5.0E-7" := by decide
      rw [h]
      simp +decide [pyFloat, takeDigits]; norm_num)).2.2.2.2.2

/-- Claim C5: writing a trigger field with an empty/absent (falsy) value
is a no-op: no command is emitted to the transport, the cached trigger
state is unchanged, and no error is raised. -/
theorem claim_C5_falsy_write_noop (d : List (String × PyVal)) (key : String)
    (val : PyVal) (h : val.truthy = false) :
    TriggerControl.setItem d key val = ⟨d, [], none⟩ := by
  unfold TriggerControl.setItem
  rw [if_pos h]

/-- Witness for claim C5: an empty-string LEVEL write leaves a concrete
cache untouched, emits nothing and raises nothing. -/
theorem claim_C5_witness :
    TriggerControl.setItem [("LEVEL", PyVal.num 1)] "LEVEL" (PyVal.str "") =
      ⟨[("LEVEL", PyVal.num 1)], [], none⟩ :=
  claim_C5_falsy_write_noop [("LEVEL", PyVal.num 1)] "LEVEL" (PyVal.str "") (by decide)

/-- Claim C9: the write guard tests Python truthiness, so the number 0
(covering 0 and 0.0), the empty string and None are all treated exactly
like an absent value by TriggerControl.__setitem__ and
HorizontalControl.__setitem__: no command is emitted, the cache is not
updated and no error is raised, so a field such as the trigger level
cannot be set to exactly 0 through this interface. -/
theorem claim_C9_zero_write_noop (d : List (String × PyVal)) (key : String) :
    TriggerControl.setItem d key (PyVal.num 0) = ⟨d, [], none⟩ ∧
    HorizontalControl.setItem d key (PyVal.num 0) = ⟨d, [], none⟩ ∧
    TriggerControl.setItem d key (PyVal.str "") = ⟨d, [], none⟩ ∧
    TriggerControl.setItem d key PyVal.none = ⟨d, [], none⟩ ∧
    HorizontalControl.setItem d key PyVal.none = ⟨d, [], none⟩ := by
  refine ⟨?_, ?_, ?_, ?_, ?_⟩
  · unfold TriggerControl.setItem; rw [if_pos (by decide)]
  · unfold HorizontalControl.setItem; rw [if_pos (by decide)]
  · unfold TriggerControl.setItem; rw [if_pos (by decide)]
  · unfold TriggerControl.setItem; rw [if_pos (by decide)]
  · unfold HorizontalControl.setItem; rw [if_pos (by decide)]

namespace TriggerControl

/-- Every command emitted by one __setitem__ call is the (key, val) pair. -/
theorem setItem_log_mem (d : List (String × PyVal)) (key : String) (val : PyVal) :
    ∀ e ∈ (setItem d key val).log, e = (key, val) := by
  unfold setItem
  split_ifs <;> simp

/-- The commands emitted by the _setD loop all carry a key of the form
name ++ k with k drawn from the variant key set. -/
theorem setDGo_log_mem (name : String) (setT : List String) :
    ∀ (kw d : List (String × PyVal)),
      ∀ e ∈ (setDGo d name setT kw).log, ∃ k ∈ setT, ∃ v, e = (name ++ k, v) := by
  intro kw
  induction kw with
  | nil => intro d e he; simp [setDGo] at he
  | cons p rest ih =>
    intro d e he
    obtain ⟨key, val⟩ := p
    rw [setDGo] at he
    by_cases hk : key ∈ setT
    · rw [if_pos hk] at he
      rcases hsi : setItem d (name ++ key) val with ⟨d2, lg, err⟩
      have hlg : ∀ e2 ∈ lg, e2 = (name ++ key, val) := by
        intro e2 he2
        have := setItem_log_mem d (name ++ key) val e2
        rw [hsi] at this
        exact this he2
      rw [hsi] at he
      cases err with
      | none =>
        simp only [List.mem_append] at he
        rcases he with he | he
        · exact ⟨key, hk, val, hlg e he⟩
        · exact ih d2 e he
      | some msg => exact ⟨key, hk, val, hlg e he⟩
    · rw [if_neg hk] at he
      simp at he

/-- The four trigger variants and their sub-dictionaries. -/
theorem trigTypesD_cases (s : String) (theD : List (String × Conv))
    (h : trigTypesD s = some theD) :
    (s = "MAIN" ∧ theD = mainD) ∨ (s = "EDGE" ∧ theD = edgeD) ∨
      (s = "PULS" ∧ theD = pulsD) ∨ (s = "VID" ∧ theD = vidD) := by
  unfold trigTypesD at h
  split_ifs at h with h1 h2 h3 h4
  · exact Or.inl ⟨h1, by injection h with h0; exact h0.symm⟩
  · exact Or.inr (Or.inl ⟨h2, by injection h with h0; exact h0.symm⟩)
  · exact Or.inr (Or.inr (Or.inl ⟨h3, by injection h with h0; exact h0.symm⟩))
  · exact Or.inr (Or.inr (Or.inr ⟨h4, by injection h with h0; exact h0.symm⟩))

/-- No variant write path can collide with the TYPE command name. -/
theorem variant_key_ne_type :
    (∀ k ∈ mainD.map Prod.fst, "MAIN" ++ ":" ++ k ≠ "TYPE") ∧
    (∀ k ∈ edgeD.map Prod.fst, "EDGE" ++ ":" ++ k ≠ "TYPE") ∧
    (∀ k ∈ pulsD.map Prod.fst, "PULS" ++ ":" ++ k ≠ "TYPE") ∧
    (∀ k ∈ vidD.map Prod.fst, "VID" ++ ":" ++ k ≠ "TYPE") := by
  decide

end TriggerControl

/-- Every command emitted by the LEVEL/MODE/HOLDO prologue of setTrigger
carries one of those three keys, never TYPE. -/
theorem setMain_log_mem (d : List (String × PyVal)) (level mode holdo : PyVal) :
    ∀ e ∈ (TriggerControl.setMain d level mode holdo).log, e.1 ≠ "TYPE" := by
  intro e he
  unfold TriggerControl.setMain at he
  simp only [List.mem_append] at he
  rcases he with (he | he) | he
  · rw [TriggerControl.setItem_log_mem _ _ _ e he]; simp
  · rw [TriggerControl.setItem_log_mem _ _ _ e he]; simp
  · rw [TriggerControl.setItem_log_mem _ _ _ e he]; simp

/-- Claim C6: every setTrigger call with a truthy (non-empty) type writes
TYPE last: in the emitted command sequence any TYPE command can only sit
in the final position (no command before the last one is a TYPE command),
so every type-specific field command of the call precedes the trigger-type
change; and a successful call does end with the TYPE command carrying the
requested type.  This holds whether or not the call raises partway. -/
theorem claim_C6_type_written_last (d : List (String × PyVal))
    (level mode holdo typ : PyVal) (trigD : List (String × PyVal))
    (ht : typ.truthy = true) :
    (∀ e ∈ (TriggerControl.setTrigger d level mode holdo typ trigD).log.dropLast,
        e.1 ≠ "TYPE") ∧
    ((TriggerControl.setTrigger d level mode holdo typ trigD).err = none →
      ∃ s, typ = PyVal.str s ∧
        (TriggerControl.setTrigger d level mode holdo typ trigD).log.getLast? =
          some ("TYPE", PyVal.str s)) := by
  have hwml := setMain_log_mem d level mode holdo
  unfold TriggerControl.setTrigger
  rw [ht]
  simp only [Bool.true_eq_false, if_false]
  cases typ with
  | none => exact absurd ht (by decide)
  | num q =>
    refine ⟨fun e he => hwml e (List.dropLast_subset _ he), fun h => absurd h (by simp)⟩
  | str s =>
    dsimp only
    rcases htd : TriggerControl.trigTypesD s with _ | theD
    · dsimp only
      exact ⟨fun e he => hwml e (List.dropLast_subset _ he), fun h => absurd h (by simp)⟩
    · dsimp only
      have hsetd : ∀ e ∈ (TriggerControl.setD
          (TriggerControl.setMain d level mode holdo).cache s trigD).log,
          e.1 ≠ "TYPE" := by
        intro e he
        rw [TriggerControl.setD, htd] at he
        obtain ⟨k, hk, v, rfl⟩ := TriggerControl.setDGo_log_mem _ _ _ _ e he
        rcases TriggerControl.trigTypesD_cases s theD htd with
          ⟨rfl, rfl⟩ | ⟨rfl, rfl⟩ | ⟨rfl, rfl⟩ | ⟨rfl, rfl⟩
        · exact TriggerControl.variant_key_ne_type.1 k hk
        · exact TriggerControl.variant_key_ne_type.2.1 k hk
        · exact TriggerControl.variant_key_ne_type.2.2.1 k hk
        · exact TriggerControl.variant_key_ne_type.2.2.2 k hk
      rcases hwd : (TriggerControl.setD
          (TriggerControl.setMain d level mode holdo).cache s trigD).err with _ | msg
      · dsimp only
        have hs : s ≠ "" := by
          intro h0
          rw [h0] at ht
          exact absurd ht (by decide)
        have hty : TriggerControl.setItem (TriggerControl.setD
            (TriggerControl.setMain d level mode holdo).cache s trigD).cache
            "TYPE" (PyVal.str s) =
            ⟨updateD (TriggerControl.setD
              (TriggerControl.setMain d level mode holdo).cache s trigD).cache
              "TYPE" (PyVal.str s), [("TYPE", PyVal.str s)], none⟩ := by
          unfold TriggerControl.setItem
          rw [if_neg (by simp [PyVal.truthy, hs]), if_pos (by decide)]
        rw [hty]
        refine ⟨?_, ?_⟩
        · intro e he
          dsimp only at he
          rw [List.dropLast_concat] at he
          simp only [List.mem_append] at he
          rcases he with he | he
          · exact hwml e he
          · exact hsetd e he
        · intro _
          refine ⟨s, rfl, ?_⟩
          dsimp only
          simp
      · dsimp only
        refine ⟨?_, fun h => absurd h (by simp)⟩
        intro e he
        have he2 := List.dropLast_subset _ he
        simp only [List.mem_append] at he2
        rcases he2 with he2 | he2
        · exact hwml e he2
        · exact hsetd e he2

/-- Witness for claim C6: a concrete successful setTrigger call with type
EDGE ends its command sequence with the TYPE EDGE command. -/
theorem claim_C6_witness :
    ∃ s, PyVal.str "EDGE" = PyVal.str s ∧
      (TriggerControl.setTrigger [] (PyVal.num 5) (PyVal.str "NORMAL")
        PyVal.none (PyVal.str "EDGE") [("SOU", PyVal.str "CH3")]).log.getLast? =
        some ("TYPE", PyVal.str s) :=
  (claim_C6_type_written_last [] (PyVal.num 5) (PyVal.str "NORMAL")
    PyVal.none (PyVal.str "EDGE") [("SOU", PyVal.str "CH3")] (by decide)).2 (by decide)

namespace Channel

/-- Per-channel state as mutated by the acquisition loop: the vertical
setting, the (tag, value) measurements last read through
Measurement.__call__, and the two derived traces; Option.none models an
attribute not yet assigned. -/
structure ChannelSt where
  voltsdiv : Option ℚ
  meas : List (String × ℚ)
  trace : Option (List ℚ)
  trace_undisplaced : Option (List ℚ)
deriving DecidableEq

/-- A fresh Channel as left by Channel.__init__. -/
def chanInit : ChannelSt := ⟨Option.none, [], Option.none, Option.none⟩

end Channel

/-- The instrument responses consumed during one acquisition batch: the
per-channel vertical scale, the per-channel immediate-measurement reader,
the per-channel preamble constants YOFF/YMULT/YZERO and raw curve payload,
the horizontal sweep scale, and the query_val responses feeding the
trigger refresh. -/
structure ScopeOracle where
  voltsdiv : ℕ → ℚ
  immed : ℕ → String → ℚ
  pre : ℕ → ℚ × ℚ × ℚ
  curve : ℕ → List ℤ
  sweepScale : ℚ
  trigResp : String → String

/-- The per-channel body of the TektronixScope.acquire loop:
getVerticalSetting, acqMeas (which may raise on an unsupported tag,
keeping the reads already made and leaving the traces stale) and the
curve decode of Channel.acquire. -/
def chanRefresh (o : ScopeOracle) (ch : ℕ) (mL : List String)
    (c : Channel.ChannelSt) : Channel.ChannelSt × Option String :=
  let vd := o.voltsdiv ch
  let m := Measurement.call (o.immed ch) mL
  match m.2 with
  | some e => (⟨some vd, m.1, c.trace, c.trace_undisplaced⟩, some e)
  | Option.none =>
    let p := o.pre ch
    let t := Channel.decodeTraces (o.curve ch) p.1 p.2.1 p.2.2 vd
    (⟨some vd, m.1, some t.1, some t.2⟩, Option.none)

/-- The orchestrator state: the four channels (as a total function on the
channel number), the list the constructor initializes under the attribute
name _channelAcqL, the differently named attribute _chanAcqL that acquire
and channelWasAcq use (Option.none while the attribute does not exist),
the trigger cache and the sweep setting. -/
structure ScopeState where
  channels : ℕ → Channel.ChannelSt
  channelAcqL : List ℕ
  chanAcqL : Option (List ℕ)
  trigD : List (String × PyVal)
  sweep : Option ℚ

/-- TektronixScope.__init__ (after the connect/clear/identify handshake):
fresh channels, _channelAcqL = [] and no _chanAcqL attribute. -/
def scopeInit : ScopeState :=
  ⟨fun _ => Channel.chanInit, [], Option.none, [], Option.none⟩

/-- TektronixScope.channelWasAcq(chN): return chN in self._chanAcqL, which
raises AttributeError when that attribute has never been assigned. -/
def channelWasAcq (st : ScopeState) (ch : ℕ) : Except String Bool :=
  match st.chanAcqL with
  | some l => Except.ok (decide (ch ∈ l))
  | Option.none => Except.error "AttributeError: _chanAcqL"

/-- The sweep suffix table of getSweepSetting: {3:'m', 6:'u', 9:'n'}. -/
def sweepSufD (m : ℤ) : Option String :=
  [((3 : ℤ), "m"), (6, "u"), (9, "n")].lookup m

/-- TektronixScope.getSweepSetting: a scale of at least 1 is kept as is; a
smaller scale is scaled by the same thousands rule as the measurement
renderer, with the smaller suffix table (KeyError outside it, modelled as
none). -/
def getSweepSetting (o : ScopeOracle) : Option ℚ :=
  if 1 ≤ o.sweepScale then some o.sweepScale
  else
    match sweepSufD (Measurement.mulmod o.sweepScale) with
    | some _ => some (o.sweepScale * (10 : ℚ) ^ Measurement.mulmod o.sweepScale)
    | Option.none => Option.none

/-- The channel loop of TektronixScope.acquire, in request order; an error
aborts the remaining channels but keeps the mutations made so far, as the
in-place Python exception would. -/
def acquireGo (o : ScopeOracle) (st : ScopeState) :
    List (ℕ × List String) → ScopeState × Option String
  | [] => (st, Option.none)
  | (ch, mL) :: rest =>
    let r := chanRefresh o ch mL (st.channels ch)
    let st2 : ScopeState :=
      ⟨fun n => if n = ch then r.1 else st.channels n,
        st.channelAcqL, st.chanAcqL, st.trigD, st.sweep⟩
    match r.2 with
    | some e => (st2, some e)
    | Option.none => acquireGo o st2 rest

/-- TektronixScope.acquire(chmD): refresh the trigger settings
(acqSettings), arm (prepare emits only a command and blocks on the human
confirmation), read the sweep setting, then assign
_chanAcqL = chmD.keys() and run the per-channel loop; complete() again
emits only a command.  A failure in the pre-channel phase propagates
before _chanAcqL is assigned, as the Python exception would. -/
def scopeAcquire (o : ScopeOracle) (st : ScopeState)
    (chmD : List (ℕ × List String)) : ScopeState × Option String :=
  let a := TriggerControl.acqSettings o.trigResp st.trigD
  match a.err with
  | some e =>
    (⟨st.channels, st.channelAcqL, st.chanAcqL, a.cache, st.sweep⟩, some e)
  | Option.none =>
    match getSweepSetting o with
    | Option.none =>
      (⟨st.channels, st.channelAcqL, st.chanAcqL, a.cache, st.sweep⟩,
        some "sweep suffix KeyError")
    | some sw =>
      acquireGo o
        ⟨st.channels, st.channelAcqL, some (chmD.map Prod.fst), a.cache, some sw⟩
        chmD

/-- The acquire loop never reassigns the _chanAcqL attribute. -/
theorem acquireGo_chanAcqL (o : ScopeOracle) :
    ∀ (chmD : List (ℕ × List String)) (st : ScopeState),
      (acquireGo o st chmD).1.chanAcqL = st.chanAcqL := by
  intro chmD
  induction chmD with
  | nil => intro st; rfl
  | cons p rest ih =>
    intro st
    obtain ⟨c, mL⟩ := p
    rw [acquireGo]
    rcases (chanRefresh o c mL (st.channels c)).2 with _ | e
    · dsimp only; rw [ih]
    · rfl

/-- The acquire loop never touches a channel that is not in its request
list, and never changes the _chanAcqL attribute. -/
theorem acquireGo_frame (o : ScopeOracle) :
    ∀ (chmD : List (ℕ × List String)) (st : ScopeState) (ch : ℕ),
      ch ∉ chmD.map Prod.fst →
      (acquireGo o st chmD).1.channels ch = st.channels ch ∧
        (acquireGo o st chmD).1.chanAcqL = st.chanAcqL := by
  intro chmD
  induction chmD with
  | nil => intro st ch _; exact ⟨rfl, rfl⟩
  | cons p rest ih =>
    intro st ch hch
    obtain ⟨c, mL⟩ := p
    simp only [List.map_cons, List.mem_cons, not_or] at hch
    rw [acquireGo]
    rcases hr : (chanRefresh o c mL (st.channels c)).2 with _ | e
    · dsimp only
      have := ih ⟨fun n => if n = c then (chanRefresh o c mL (st.channels c)).1
          else st.channels n, st.channelAcqL, st.chanAcqL, st.trigD, st.sweep⟩ ch hch.2
      rw [this.1, this.2]
      exact ⟨by simp [hch.1], rfl⟩
    · dsimp only
      exact ⟨by simp [hch.1], rfl⟩

/-- Claim C7: a channel not named in the request map is untouched by the
batch: its whole channel state (vertical setting, measurements, both
traces) is exactly what it was before, and afterwards channelWasAcq
reports it as not acquired; only the channels named in the map are
refreshed.  The reported-flag conjunct is stated for batches whose
pre-channel phase (trigger refresh and sweep reading) succeeds, since a
failure there propagates before _chanAcqL is assigned. -/
theorem claim_C7_unrequested_channels_kept (o : ScopeOracle) (st : ScopeState)
    (chmD : List (ℕ × List String)) (ch : ℕ)
    (hch : ch ∉ chmD.map Prod.fst)
    (hpre : (TriggerControl.acqSettings o.trigResp st.trigD).err = none ∧
      getSweepSetting o ≠ none) :
    (scopeAcquire o st chmD).1.channels ch = st.channels ch ∧
      channelWasAcq (scopeAcquire o st chmD).1 ch = Except.ok false := by
  simp only [scopeAcquire]
  rw [hpre.1]
  rcases hsw : getSweepSetting o with _ | sw
  · exact absurd hsw hpre.2
  · dsimp only
    have hfr := acquireGo_frame o chmD
      ⟨st.channels, st.channelAcqL, some (chmD.map Prod.fst),
        (TriggerControl.acqSettings o.trigResp st.trigD).cache, some sw⟩ ch hch
    refine ⟨hfr.1, ?_⟩
    unfold channelWasAcq
    rw [hfr.2]
    simp [hch]

/-- A concrete batch oracle for the witnesses: constant responses, a unit
sweep scale and the instr0 trigger responses. -/
def oracle0 : ScopeOracle :=
  ⟨fun _ => 1, fun _ _ => 42, fun _ => (0, 1, 0), fun _ => [1, 10], 1, instr0⟩

/-- Witness for claim C7: acquiring only channel 1 against the concrete
oracle leaves channel 2 exactly as constructed and reported unacquired. -/
theorem claim_C7_witness :
    (scopeAcquire oracle0 scopeInit [(1, ["FREQ"])]).1.channels 2 =
        scopeInit.channels 2 ∧
      channelWasAcq (scopeAcquire oracle0 scopeInit [(1, ["FREQ"])]).1 2 =
        Except.ok false :=
  claim_C7_unrequested_channels_kept oracle0 scopeInit [(1, ["FREQ"])] 2
    (by decide)
    ⟨(TriggerControl.acqSettings_edge instr0 [] (114 / 25) (1 / 2000000)
        (by decide)
        (by
          have h : instr0 "TRIGGER:MAIN:LEVEL?" = "4.56E0" := by decide
          rw [h]
          simp +decide [pyFloat, takeDigits]; norm_num)
        (by
          have h : instr0 "TRIGGER:MAIN:HOLDO?" = "5.0E-7" := by decide
          rw [h]
          simp +decide [pyFloat, takeDigits]; norm_num)).2,
      by decide⟩

/-- Claim C10: the constructor initializes the acquired-channel list only
under the attribute name _channelAcqL, while channelWasAcq reads the
differently named _chanAcqL, which only acquire assigns: before the first
acquire, channelWasAcq raises AttributeError instead of returning false,
for every channel number, and a batch whose pre-channel phase succeeds is
exactly what brings _chanAcqL into existence. -/
theorem claim_C10_attribute_mismatch :
    scopeInit.channelAcqL = [] ∧ scopeInit.chanAcqL = Option.none ∧
    (∀ ch, channelWasAcq scopeInit ch =
      Except.error "AttributeError: _chanAcqL") ∧
    (∀ (o : ScopeOracle) (st : ScopeState) (chmD : List (ℕ × List String)),
      (TriggerControl.acqSettings o.trigResp st.trigD).err = none →
      getSweepSetting o ≠ none →
      (scopeAcquire o st chmD).1.chanAcqL = some (chmD.map Prod.fst)) := by
  refine ⟨rfl, rfl, fun ch => rfl, ?_⟩
  intro o st chmD h1 h2
  simp only [scopeAcquire]
  rw [h1]
  rcases hsw : getSweepSetting o with _ | sw
  · exact absurd hsw h2
  · dsimp only
    exact (acquireGo_chanAcqL o chmD _).trans rfl

/-- Witness for claim C10: against the concrete oracle, the first acquire
brings _chanAcqL into existence with exactly the requested channels. -/
theorem claim_C10_witness :
    (scopeAcquire oracle0 scopeInit [(1, ["FREQ"])]).1.chanAcqL = some [1] :=
  claim_C10_attribute_mismatch.2.2.2 oracle0 scopeInit [(1, ["FREQ"])]
    (TriggerControl.acqSettings_edge instr0 [] (114 / 25) (1 / 2000000)
      (by decide)
      (by
        have h : instr0 "TRIGGER:MAIN:LEVEL?" = "4.56E0" := by decide
        rw [h]
        simp +decide [pyFloat, takeDigits]; norm_num)
      (by
        have h : instr0 "TRIGGER:MAIN:HOLDO?" = "5.0E-7" := by decide
        rw [h]
        simp +decide [pyFloat, takeDigits]; norm_num)).2
    (by decide)

/-- The clear-acknowledgement line the scope sends after a break:
DCL, a NUL byte and a newline. -/
def dclStr : String := "DCL\x00\n"

/-- The message of the ValueError raised when the retry budget runs out. -/
def clearErrMsg (resp : String) : String :=
  "Serial port did not return DCL! (" ++ resp ++ ")"

/-- The while loop of TDS2024.clear over a stream of readline results:
i is the index of the next line to read and cnt the remaining budget.
Each iteration sends a break and reads a line; the acknowledgement breaks
out of the loop (the Bool records the extra readline-and-flush done when
cnt is 9, i.e. on a success at the second attempt); otherwise cnt is
decremented, and reaching 0 raises the fatal ValueError. -/
def clearGo (resps : ℕ → String) : ℕ → ℕ → Except String (ℕ × Bool)
  | i, 0 =>
    if resps i = dclStr then Except.ok (i + 1, false)
    else Except.error (clearErrMsg (resps i))
  | i, 1 =>
    if resps i = dclStr then Except.ok (i + 1, false)
    else Except.error (clearErrMsg (resps i))
  | i, c + 2 =>
    if resps i = dclStr then Except.ok (i + 1, (c + 2 : ℕ) == 9)
    else clearGo resps (i + 1) (c + 1)

/-- TDS2024.clear: the loop entered with cnt = 10 at the first line.  On
success the returned number is how many lines were read (the last one
being the acknowledgement); the error is the fatal ValueError after all
attempts failed. -/
def clear (resps : ℕ → String) : Except String (ℕ × Bool) :=
  clearGo resps 0 10

/-- A successful clearGo run with a positive budget stops at the first
acknowledgement, within the budget. -/
theorem clearGo_ok_char (resps : ℕ → String) :
    ∀ (cnt i n : ℕ) (b : Bool), 1 ≤ cnt →
      clearGo resps i cnt = Except.ok (n, b) →
      i < n ∧ n ≤ i + cnt ∧ resps (n - 1) = dclStr ∧
        ∀ j, i ≤ j → j < n - 1 → resps j ≠ dclStr := by
  intro cnt
  induction cnt using Nat.strong_induction_on with
  | _ cnt ih =>
    intro i n b hc h
    rcases cnt with _ | _ | c
    · exact absurd hc (by omega)
    · rw [clearGo] at h
      by_cases hd : resps i = dclStr
      · rw [if_pos hd] at h
        injection h with h0
        injection h0 with h1 h2
        subst h1
        exact ⟨by omega, by omega, by simpa using hd, fun j hj1 hj2 => by omega⟩
      · rw [if_neg hd] at h
        exact absurd h (by simp)
    · rw [clearGo] at h
      by_cases hd : resps i = dclStr
      · rw [if_pos hd] at h
        injection h with h0
        injection h0 with h1 h2
        subst h1
        exact ⟨by omega, by omega, by simpa using hd, fun j hj1 hj2 => by omega⟩
      · rw [if_neg hd] at h
        obtain ⟨g1, g2, g3, g4⟩ := ih (c + 1) (by omega) (i + 1) n b (by omega) h
        refine ⟨by omega, by omega, g3, fun j hj1 hj2 => ?_⟩
        rcases Nat.eq_or_lt_of_le hj1 with rfl | hgt
        · exact hd
        · exact g4 j (by omega) hj2

/-- When every line in the budget window fails to be the acknowledgement,
clearGo raises the fatal error carrying the last line read. -/
theorem clearGo_err_char (resps : ℕ → String) :
    ∀ (cnt i : ℕ), 1 ≤ cnt →
      (∀ j, i ≤ j → j < i + cnt → resps j ≠ dclStr) →
      clearGo resps i cnt = Except.error (clearErrMsg (resps (i + cnt - 1))) := by
  intro cnt
  induction cnt using Nat.strong_induction_on with
  | _ cnt ih =>
    intro i hc hall
    rcases cnt with _ | _ | c
    · exact absurd hc (by omega)
    · rw [clearGo, if_neg (hall i (by omega) (by omega))]
      congr 1
    · rw [clearGo, if_neg (hall i (by omega) (by omega))]
      have := ih (c + 1) (by omega) (i + 1) (by omega)
        (fun j hj1 hj2 => hall j (by omega) (by omega))
      rw [this]
      have h9 : i + 1 + (c + 1) - 1 = i + (c + 1 + 1) - 1 := by omega
      rw [h9]

/-- Claim C8: the clear handshake attempts the break-and-read cycle at
most 10 times and stops at the first read of the acknowledgement line: a
successful run reads n ≤ 10 lines, the last being the acknowledgement and
none of the earlier ones; and when all 10 reads fail to return the
acknowledgement it raises the fatal ValueError (carrying the 10th reply)
instead of retrying further. -/
theorem claim_C8_bounded_clear (resps : ℕ → String) :
    (∀ (n : ℕ) (b : Bool), clear resps = Except.ok (n, b) →
      1 ≤ n ∧ n ≤ 10 ∧ resps (n - 1) = dclStr ∧
        ∀ j, j < n - 1 → resps j ≠ dclStr) ∧
    ((∀ j, j < 10 → resps j ≠ dclStr) →
      clear resps = Except.error (clearErrMsg (resps 9))) := by
  constructor
  · intro n b h
    obtain ⟨h1, h2, h3, h4⟩ := clearGo_ok_char resps 10 0 n b (by norm_num) h
    exact ⟨by omega, by omega, h3, fun j hj => h4 j (by omega) hj⟩
  · intro hall
    have := clearGo_err_char resps 10 0 (by norm_num)
      (fun j hj1 hj2 => hall j (by omega))
    simpa using this

/-- A response stream that never acknowledges. -/
def rFail : ℕ → String := fun _ => "X"

/-- Witness for claim C8: against a stream that never acknowledges, clear
raises the fatal error after its 10 attempts. -/
theorem claim_C8_witness :
    clear rFail = Except.error (clearErrMsg "X") := by
  have := (claim_C8_bounded_clear rFail).2 (fun j hj => by
    show rFail j ≠ dclStr
    simp [rFail, dclStr])
  simpa [rFail] using this

end Tek
